import Mathlib

/-!
Verification of the XP progression engine and guild-scoped state of the
community-management bot (`src/main.py`).

The Python source computes the level via floating-point square root:
`int((-1 + (1 + 8 * xp / 100) ** 0.5) / 2)`.  In exact real arithmetic this
equals `(Nat.sqrt (100 + 8 * xp) - 10) / 20`, which is how `get_level` is
embedded below; the equality with the real-valued floor formula is proved in
`get_level_real_formula`.
-/

/-- Embeds `get_level` (src/main.py lines 235-238): `0` for `xp <= 0`,
otherwise the integer part of `(-1 + sqrt (1 + 8 * xp / 100)) / 2`,
written with the natural-number square root. -/
def get_level (xp : Int) : Int :=
  if xp ≤ 0 then 0
  else (((Nat.sqrt (100 + 8 * xp.toNat) - 10) / 20 : ℕ) : ℤ)

/-- Embeds `xp_for_level` (src/main.py lines 240-241): `50 * level * (level + 1)`. -/
def xp_for_level (level : Int) : Int :=
  50 * level * (level + 1)

/-- Embeds `get_level_info` (src/main.py lines 243-250); the tuple is
`(level, xp_in_level, next_needed, progress)`, with the float percentage
modelled as a rational. -/
def get_level_info (xp : Int) : Int × Int × Int × ℚ :=
  let level := get_level xp
  let xp_start := xp_for_level level
  let xp_for_next := 100 * (level + 1)
  let xp_in_level := xp - xp_start
  let next_needed := xp_for_next - xp_in_level
  let progress : ℚ := if 0 < xp_for_next then ((xp_in_level : ℚ) / (xp_for_next : ℚ)) * 100 else 0
  (level, xp_in_level, next_needed, progress)

lemma get_level_nonneg (xp : Int) : 0 ≤ get_level xp := by
  unfold get_level
  split
  · exact le_refl 0
  · exact Int.natCast_nonneg _

lemma get_level_nonpos (xp : Int) (h : xp ≤ 0) : get_level xp = 0 := by
  unfold get_level
  exact if_pos h

/-- The level of an exact triangular threshold `50 * n * (n + 1)` is `n`. -/
lemma get_level_triangular (n : ℕ) : get_level (50 * (n : ℤ) * ((n : ℤ) + 1)) = n := by
  rcases Nat.eq_zero_or_pos n with h0 | hpos
  · subst h0
    simp [get_level]
  · have hn : (0 : ℤ) < (n : ℤ) := by exact_mod_cast hpos
    have hx : (0 : ℤ) < 50 * (n : ℤ) * ((n : ℤ) + 1) := by nlinarith
    unfold get_level
    rw [if_neg (not_le.mpr hx)]
    have ht : (50 * (n : ℤ) * ((n : ℤ) + 1)).toNat = 50 * n * (n + 1) := by
      have h : (50 * (n : ℤ) * ((n : ℤ) + 1)) = ((50 * n * (n + 1) : ℕ) : ℤ) := by
        push_cast
        ring
      rw [h, Int.toNat_natCast]
    rw [ht]
    have harg : 100 + 8 * (50 * n * (n + 1)) = (20 * n + 10) * (20 * n + 10) := by ring
    rw [harg, Nat.sqrt_eq]
    have hdiv : (20 * n + 10 - 10) / 20 = n := by omega
    rw [hdiv]

lemma xp_roundtrip (L : Int) (hL : 0 ≤ L) : get_level (xp_for_level L) = L := by
  lift L to ℕ using hL
  simpa [xp_for_level] using get_level_triangular L

/-- In exact real arithmetic the source's formula
`(-1 + sqrt (1 + 8 * xp / 100)) / 2`, floored, equals the integer-sqrt
expression used in `get_level`. -/
lemma floor_sqrt_formula (x : Int) (hx : 0 < x) :
    ⌊((-1 : ℝ) + Real.sqrt (1 + 8 * (x : ℝ) / 100)) / 2⌋
      = (((Nat.sqrt (100 + 8 * x.toNat) - 10) / 20 : ℕ) : ℤ) := by
  set n : ℕ := 100 + 8 * x.toNat with hn
  have hxr : (x : ℝ) = (x.toNat : ℝ) := by
    rw [← Int.toNat_of_nonneg hx.le]
    push_cast
    rw [Int.toNat_of_nonneg hx.le]
  have h1 : (1 : ℝ) + 8 * (x : ℝ) / 100 = (n : ℝ) / 100 := by
    rw [hxr, hn]
    push_cast
    ring
  have h100 : Real.sqrt 100 = 10 := by
    rw [show (100 : ℝ) = 10 ^ 2 by norm_num, Real.sqrt_sq (by norm_num : (0 : ℝ) ≤ 10)]
  have h2 : ((-1 : ℝ) + Real.sqrt (1 + 8 * (x : ℝ) / 100)) / 2
      = (Real.sqrt (n : ℝ) - 10) / 20 := by
    rw [h1, Real.sqrt_div (by positivity) 100, h100]
    ring
  rw [h2]
  set s : ℕ := Nat.sqrt n with hs
  have hs10 : 10 ≤ s := by
    rw [hs]
    exact Nat.le_sqrt.mpr (by omega)
  set k : ℕ := (s - 10) / 20 with hk
  have hk1 : 20 * k + 10 ≤ s := by omega
  have hk2 : s + 1 ≤ 20 * k + 30 := by omega
  have hle : (s : ℝ) ≤ Real.sqrt (n : ℝ) := Real.nat_sqrt_le_real_sqrt
  have hlt : Real.sqrt (n : ℝ) < (s : ℝ) + 1 := Real.real_sqrt_lt_nat_sqrt_succ
  have hfloor : ⌊(Real.sqrt (n : ℝ) - 10) / 20⌋ = (k : ℤ) := by
    rw [Int.floor_eq_iff]
    constructor
    · have h1' : ((20 * k + 10 : ℕ) : ℝ) ≤ Real.sqrt (n : ℝ) := le_trans (by exact_mod_cast hk1) hle
      push_cast at h1'
      push_cast
      linarith
    · have h2' : Real.sqrt (n : ℝ) < ((20 * k + 30 : ℕ) : ℝ) := by
        refine lt_of_lt_of_le hlt ?_
        exact_mod_cast hk2
      push_cast at h2'
      push_cast
      linarith
  rw [hfloor]

lemma get_level_real_formula (xp : Int) (hxp : 0 < xp) :
    get_level xp = ⌊((-1 : ℝ) + Real.sqrt (1 + 8 * (xp : ℝ) / 100)) / 2⌋ := by
  unfold get_level
  rw [if_neg (not_le.mpr hxp), floor_sqrt_formula xp hxp]

lemma get_level_mono (x1 x2 : Int) (h : x1 ≤ x2) : get_level x1 ≤ get_level x2 := by
  unfold get_level
  by_cases h1 : x1 ≤ 0
  · rw [if_pos h1]
    split
    · exact le_refl 0
    · exact Int.natCast_nonneg _
  · rw [if_neg h1, if_neg (by omega)]
    have harg : 100 + 8 * x1.toNat ≤ 100 + 8 * x2.toNat := by omega
    exact_mod_cast Nat.div_le_div_right (Nat.sub_le_sub_right (Nat.sqrt_le_sqrt harg) 10)

/-- C1: for every integer `L ≥ 0`, `get_level (xp_for_level L) = L`, and the
round trip `get_level (xp_for_level (get_level x)) = get_level x` holds for
every non-negative `x`. -/
theorem level_threshold_roundtrip :
    (∀ L : Int, 0 ≤ L → get_level (xp_for_level L) = L) ∧
    (∀ x : Int, 0 ≤ x → get_level (xp_for_level (get_level x)) = get_level x) :=
  ⟨fun L hL => xp_roundtrip L hL,
   fun x _ => xp_roundtrip (get_level x) (get_level_nonneg x)⟩

theorem level_threshold_roundtrip_witness :
    get_level (xp_for_level 7) = 7 ∧
    get_level (xp_for_level (get_level 123)) = get_level 123 :=
  ⟨level_threshold_roundtrip.1 7 (by norm_num),
   level_threshold_roundtrip.2 123 (by norm_num)⟩

/-- C3: `get_level` returns `0` for `xp ≤ 0` and otherwise the floor of
`(-1 + sqrt (1 + 8 * xp / 100)) / 2`; moreover `get_level 0 = 0`,
`get_level (-5) = 0` and `xp_for_level 0 = 0`. -/
theorem get_level_closed_form :
    (∀ xp : Int, xp ≤ 0 → get_level xp = 0) ∧
    (∀ xp : Int, 0 < xp →
      get_level xp = ⌊((-1 : ℝ) + Real.sqrt (1 + 8 * (xp : ℝ) / 100)) / 2⌋) ∧
    get_level 0 = 0 ∧ get_level (-5) = 0 ∧ xp_for_level 0 = 0 :=
  ⟨fun xp h => get_level_nonpos xp h,
   fun xp h => get_level_real_formula xp h,
   by decide, by decide, by decide⟩

theorem get_level_closed_form_witness :
    get_level (-7) = 0 ∧
    get_level 1 = ⌊((-1 : ℝ) + Real.sqrt (1 + 8 * ((1 : ℤ) : ℝ) / 100)) / 2⌋ :=
  ⟨get_level_closed_form.1 (-7) (by norm_num),
   get_level_closed_form.2.1 1 (by norm_num)⟩

/-- C7: `get_level` is monotone non-decreasing. -/
theorem get_level_monotone (x1 x2 : Int) (h : x1 < x2) : get_level x1 ≤ get_level x2 :=
  get_level_mono x1 x2 h.le

theorem get_level_monotone_witness : get_level 3 ≤ get_level 7 :=
  get_level_monotone 3 7 (by norm_num)

/-! Guild-scoped in-memory XP state.  The Python dictionaries
`xp_data[guild_id][user_id]` are read with `.get(user_id, 0)`, so a total
function with default `0` models the table; the asynchronous SQLite
write-through and the lazy load are outside the in-memory semantics the
claims are about. -/

/-- In-memory XP table: guild id, then user id, to cumulative XP (absent = 0). -/
abbrev XpState := Int → Int → Int

/-- Embeds `get_user_xp` (src/main.py lines 215-218): `xp_data.get(guild_id, {}).get(user_id, 0)`. -/
def get_user_xp (s : XpState) (guild_id user_id : Int) : Int :=
  s guild_id user_id

/-- Embeds `set_user_xp` (src/main.py lines 220-224): stores `max 0 xp`. -/
def set_user_xp (s : XpState) (guild_id user_id xp : Int) : XpState :=
  fun g' u' => if g' = guild_id ∧ u' = user_id then max 0 xp else s g' u'

/-- Embeds `add_user_xp` (src/main.py lines 226-233): returns the updated
state together with `some new_level` when a level-up is signalled
(`notify_level_up` is awaited exactly when `new_level > old_level`). -/
def add_user_xp (s : XpState) (guild_id user_id amount : Int) : XpState × Option Int :=
  let current := get_user_xp s guild_id user_id
  let old_level := get_level current
  let new_xp := current + amount
  let s' := set_user_xp s guild_id user_id new_xp
  let new_level := get_level new_xp
  (s', if new_level > old_level then some new_level else none)

lemma get_set_same (s : XpState) (g u xp : Int) :
    get_user_xp (set_user_xp s g u xp) g u = max 0 xp := by
  simp [get_user_xp, set_user_xp]

lemma get_level_max_zero (x : Int) : get_level (max 0 x) = get_level x := by
  rcases le_or_lt x 0 with h | h
  · rw [max_eq_left h, get_level_nonpos 0 le_rfl, get_level_nonpos x h]
  · rw [max_eq_right h.le]

/-- C4: the progress-bar window `100 * (level + 1)` equals the XP delta
between consecutive thresholds, both as an algebraic identity on
`xp_for_level` and for the window actually computed by `get_level_info`
(`next_needed + xp_in_level`). -/
theorem window_eq_threshold_delta :
    (∀ L : Int, 0 ≤ L →
      100 * (L + 1) = xp_for_level (L + 1) - xp_for_level L) ∧
    (∀ xp : Int,
      (get_level_info xp).2.2.1 + (get_level_info xp).2.1
        = xp_for_level ((get_level_info xp).1 + 1) - xp_for_level (get_level_info xp).1) := by
  constructor
  · intro L _
    unfold xp_for_level
    ring
  · intro xp
    unfold get_level_info xp_for_level
    ring

theorem window_eq_threshold_delta_witness :
    100 * ((3 : ℤ) + 1) = xp_for_level (3 + 1) - xp_for_level 3 :=
  window_eq_threshold_delta.1 3 (by norm_num)

lemma get_level_150 : get_level 150 = 1 := by
  unfold get_level
  rw [if_neg (by norm_num)]
  have h : (100 + 8 * (150 : ℤ).toNat) = 1300 := rfl
  rw [h, show Nat.sqrt 1300 = 36 from (Nat.eq_sqrt.mpr (by norm_num)).symm]
  decide

/-- C5: `add_user_xp` signals a level-up exactly when the level of the
stored post-mutation XP exceeds the pre-mutation level; concretely, from
XP 0 a grant of 150 stores 150, `get_level 150 = 1`, and the signal fires
with level 1. -/
theorem add_xp_levelup_signal :
    (∀ (s : XpState) (g u amount : Int),
      (add_user_xp s g u amount).2 ≠ none ↔
        get_level (get_user_xp (add_user_xp s g u amount).1 g u)
          > get_level (get_user_xp s g u)) ∧
    (∀ g u : Int,
      get_user_xp (add_user_xp (fun _ _ => 0) g u 150).1 g u = 150 ∧
      get_level 150 = 1 ∧
      (add_user_xp (fun _ _ => 0) g u 150).2 = some 1) := by
  constructor
  · intro s g u amount
    show (if get_level (get_user_xp s g u + amount) > get_level (get_user_xp s g u)
        then some (get_level (get_user_xp s g u + amount)) else none) ≠ none ↔
      get_level (get_user_xp (set_user_xp s g u (get_user_xp s g u + amount)) g u)
        > get_level (get_user_xp s g u)
    rw [get_set_same, get_level_max_zero]
    split_ifs with hc
    · simp [hc]
    · simp [hc]
  · intro g u
    refine ⟨?_, get_level_150, ?_⟩
    · show get_user_xp (set_user_xp (fun _ _ => 0) g u ((fun _ _ => (0 : ℤ)) g u + 150)) g u = 150
      rw [get_set_same]
      show max 0 ((0 : ℤ) + 150) = 150
      norm_num
    · show (if get_level ((0 : ℤ) + 150) > get_level (0 : ℤ)
          then some (get_level ((0 : ℤ) + 150)) else none) = some 1
      rw [show ((0 : ℤ) + 150) = 150 by norm_num, get_level_150,
        get_level_nonpos 0 le_rfl]
      norm_num

/-- C6: `set_user_xp` clamps: the stored value is `max 0 xp`, and storing
`-10` yields `0`. -/
theorem set_xp_clamps (s : XpState) (g u xp : Int) :
    get_user_xp (set_user_xp s g u xp) g u = max 0 xp ∧
    get_user_xp (set_user_xp s g u (-10)) g u = 0 :=
  ⟨get_set_same s g u xp,
   (get_set_same s g u (-10)).trans (max_eq_left (by norm_num))⟩

/-- C8: granting `a` then `b` yields the same final level as granting
`a + b` at once, for non-negative starting XP and non-negative `a`, `b`. -/
theorem add_xp_sequential_level (s : XpState) (g u a b : Int)
    (hx : 0 ≤ get_user_xp s g u) (ha : 0 ≤ a) (hb : 0 ≤ b) :
    get_level (get_user_xp (add_user_xp (add_user_xp s g u a).1 g u b).1 g u)
      = get_level (get_user_xp (add_user_xp s g u (a + b)).1 g u) := by
  show get_level (get_user_xp (set_user_xp _ g u
      (get_user_xp (set_user_xp s g u (get_user_xp s g u + a)) g u + b)) g u)
    = get_level (get_user_xp (set_user_xp s g u (get_user_xp s g u + (a + b))) g u)
  rw [get_set_same, get_set_same, get_set_same]
  have h : max 0 (max 0 (get_user_xp s g u + a) + b)
      = max 0 (get_user_xp s g u + (a + b)) := by omega
  rw [h]

theorem add_xp_sequential_level_witness :
    get_level (get_user_xp (add_user_xp (add_user_xp (fun _ _ => 0) 1 2 70).1 1 2 80).1 1 2)
      = get_level (get_user_xp (add_user_xp (fun _ _ => 0) 1 2 (70 + 80)).1 1 2) :=
  add_xp_sequential_level (fun _ _ => 0) 1 2 70 80 (by norm_num [get_user_xp])
    (by norm_num) (by norm_num)

/-! Reward notifier (`notify_level_up`, src/main.py lines 258-286).  The
platform-gateway interactions are modelled by booleans recording whether the
guild, member and channel lookups succeed and whether the reward role already
exists; the result records which side effects the function performs. -/

/-- Embeds `level_rewards` (src/main.py line 256):
`{5: "VIP", 10: "Premium", 20: "Moderator"}`. -/
def level_rewards (level : Int) : Option String :=
  if level = 5 then some "VIP"
  else if level = 10 then some "Premium"
  else if level = 20 then some "Moderator"
  else none

/-- Side effects performed by one `notify_level_up` call. -/
structure NotifyResult where
  role_created : Bool
  role_granted : Bool
  message_sent : Bool
deriving DecidableEq

/-- Embeds the control flow of `notify_level_up` (src/main.py lines 258-286):
early returns when the guild or member lookup fails, when
`level_channels.get(guild_id)` is absent or falsy (`if not channel_id`), or
when the channel lookup fails; only then is the reward role
created/granted and the embed sent. -/
def notify_level_up (guild_exists member_exists : Bool) (channel_id : Option Int)
    (channel_exists role_exists : Bool) (new_level : Int) : NotifyResult :=
  if !guild_exists then ⟨false, false, false⟩
  else if !member_exists then ⟨false, false, false⟩
  else
    match channel_id with
    | none => ⟨false, false, false⟩
    | some cid =>
      if cid = 0 then ⟨false, false, false⟩
      else if !channel_exists then ⟨false, false, false⟩
      else
        match level_rewards new_level with
        | some _ => ⟨!role_exists, true, true⟩
        | none => ⟨false, false, true⟩

/-- C2 counterexample: level 5 has a reward entry, yet with no notification
channel configured `notify_level_up` grants nothing — the role grant is
skipped, not performed silently. -/
theorem no_channel_skips_reward_counterexample :
    (level_rewards 5).isSome = true ∧
    (notify_level_up true true none true false 5).role_granted = false := by
  decide

/-- C2 amended: with no configured notification channel `notify_level_up`
returns before any side effect (no role grant, no message); the reward role
is granted exactly when the guild, member and a configured (non-falsy)
channel all resolve and the level has a reward entry. -/
theorem no_channel_skips_reward :
    (∀ (ge me ce re : Bool) (l : Int),
      notify_level_up ge me none ce re l = ⟨false, false, false⟩) ∧
    (∀ (cid : Int) (re : Bool) (l : Int), cid ≠ 0 → (level_rewards l).isSome →
      (notify_level_up true true (some cid) true re l).role_granted = true ∧
      (notify_level_up true true (some cid) true re l).message_sent = true) := by
  constructor
  · intro ge me ce re l
    unfold notify_level_up
    rcases ge with _ | _ <;> rcases me with _ | _ <;> rfl
  · intro cid re l hcid hl
    rcases h : level_rewards l with _ | r
    · rw [h] at hl
      simp at hl
    · simp [notify_level_up, hcid, h]

theorem no_channel_skips_reward_witness :
    (notify_level_up true true (some 1) true false 5).role_granted = true ∧
    (notify_level_up true true (some 1) true false 5).message_sent = true :=
  no_channel_skips_reward.2 1 false 5 (by norm_num) (by decide)

/-! Deleted-media ring buffer (`on_message_delete`, src/main.py lines
992-1002): on a deleted message with an image attachment the entry is
inserted at the head of `last_deleted_photo[guild_id]` and, when the list
exceeds 10 entries, the last one is popped. -/

/-- One entry of `last_deleted_photo`: author, text content, first
attachment URL, ISO timestamp. -/
structure DeletedPhoto where
  author : String
  content : String
  image_url : String
  timestamp : String

/-- Embeds the buffer mutation of `on_message_delete` (src/main.py lines
995-998): `photos.insert(0, entry)` then `if len(photos) > 10: photos.pop()`. -/
def record_deleted_photo (buf : List DeletedPhoto) (entry : DeletedPhoto) :
    List DeletedPhoto :=
  let photos := entry :: buf
  if photos.length > 10 then photos.dropLast else photos

/-- C9: on buffers of at most 10 entries (the only reachable ones),
`record_deleted_photo` is head-insertion truncated to 10, and inserting 12
entries into an empty buffer leaves exactly the last 10, most recent
first. -/
theorem deleted_photo_ring_buffer :
    (∀ (buf : List DeletedPhoto) (e : DeletedPhoto), buf.length ≤ 10 →
      record_deleted_photo buf e = (e :: buf).take 10) ∧
    (∀ e1 e2 e3 e4 e5 e6 e7 e8 e9 e10 e11 e12 : DeletedPhoto,
      List.foldl record_deleted_photo []
          [e1, e2, e3, e4, e5, e6, e7, e8, e9, e10, e11, e12]
        = [e12, e11, e10, e9, e8, e7, e6, e5, e4, e3]) := by
  constructor
  · intro buf e hlen
    have hc : (e :: buf).length = buf.length + 1 := List.length_cons e buf
    show (if (e :: buf).length > 10 then (e :: buf).dropLast else e :: buf) = (e :: buf).take 10
    by_cases h : buf.length = 10
    · rw [if_pos (by omega), List.dropLast_eq_take, show (e :: buf).length - 1 = 10 by omega]
    · rw [if_neg (by omega), List.take_of_length_le (by omega)]
  · intro e1 e2 e3 e4 e5 e6 e7 e8 e9 e10 e11 e12
    simp [record_deleted_photo]

theorem deleted_photo_ring_buffer_witness :
    record_deleted_photo [] ⟨"a", "b", "c", "d"⟩
      = ([(⟨"a", "b", "c", "d"⟩ : DeletedPhoto)]).take 10 :=
  deleted_photo_ring_buffer.1 [] ⟨"a", "b", "c", "d"⟩ (by simp)

/-! Passive XP accrual (`on_message`, src/main.py lines 1004-1025).  Only
the XP-relevant tail of the handler is modelled: bot authors return
immediately; for guild messages a per-(guild, user) cooldown map (absent =
0) gates `add_user_xp` with a random amount, and the cooldown timestamp is
written only on a grant.  The AFK handling earlier in the handler touches
neither the XP table nor the cooldown map. -/

/-- Cooldown tracker `msg_cooldown`: guild id, then user id, to the epoch
second of the last passive grant (absent = 0, as `guild_cd.get(author, 0)`). -/
abbrev CooldownState := Int → Int → ℚ

/-- Pointwise update of the cooldown map. -/
def update_cooldown (cd : CooldownState) (guild_id user_id : Int) (t : ℚ) :
    CooldownState :=
  fun g' u' => if g' = guild_id ∧ u' = user_id then t else cd g' u'

/-- Embeds the XP-granting portion of `on_message` (src/main.py lines
1004-1025): no-op for bot authors or outside a guild; otherwise grants
`amount` XP and records `now` iff `now - guild_cd.get(author, 0) > 120`.
The `random.randint(15, 25)` draw is passed in as `amount`. -/
def on_message_xp (s : XpState) (cd : CooldownState) (guild_id user_id : Int)
    (now : ℚ) (amount : Int) (author_is_bot in_guild : Bool) :
    XpState × CooldownState :=
  if author_is_bot then (s, cd)
  else if in_guild then
    if now - cd guild_id user_id > 120 then
      ((add_user_xp s guild_id user_id amount).1, update_cooldown cd guild_id user_id now)
    else (s, cd)
  else (s, cd)

/-- C10: a non-bot guild message grants the drawn amount `r`
(with `15 ≤ r ≤ 25` as produced by `random.randint(15, 25)`) exactly when
more than 120 seconds have passed since the author's last grant in that
guild, and then records the grant time; otherwise, and for bot authors,
both the XP table and the cooldown map are unchanged. -/
theorem passive_xp_accrual (s : XpState) (cd : CooldownState)
    (g u : Int) (now : ℚ) (r : Int) :
    (15 ≤ r → r ≤ 25 → 0 ≤ get_user_xp s g u → 120 < now - cd g u →
      get_user_xp (on_message_xp s cd g u now r false true).1 g u
          = get_user_xp s g u + r ∧
        (on_message_xp s cd g u now r false true).2 g u = now) ∧
    (now - cd g u ≤ 120 → on_message_xp s cd g u now r false true = (s, cd)) ∧
    (∀ b : Bool, on_message_xp s cd g u now r true b = (s, cd)) := by
  refine ⟨?_, ?_, ?_⟩
  · intro h15 _ hx hcd
    unfold on_message_xp
    rw [if_neg (by simp), if_pos rfl, if_pos hcd]
    constructor
    · show get_user_xp (set_user_xp s g u (get_user_xp s g u + r)) g u = get_user_xp s g u + r
      rw [get_set_same]
      omega
    · show update_cooldown cd g u now g u = now
      simp [update_cooldown]
  · intro hcd
    unfold on_message_xp
    rw [if_neg (by simp), if_pos rfl, if_neg (by exact not_lt.mpr hcd)]
  · intro b
    unfold on_message_xp
    rw [if_pos rfl]

theorem passive_xp_accrual_witness :
    get_user_xp (on_message_xp (fun _ _ => 0) (fun _ _ => 0) 1 2 200 20 false true).1 1 2
        = get_user_xp (fun _ _ => 0) 1 2 + 20 ∧
      (on_message_xp (fun _ _ => 0) (fun _ _ => 0) 1 2 200 20 false true).2 1 2 = 200 :=
  (passive_xp_accrual (fun _ _ => 0) (fun _ _ => 0) 1 2 200 20).1
    (by norm_num) (by norm_num) (by norm_num [get_user_xp]) (by norm_num)
